import Mathlib

/-!
Shallow embedding of the Restor1-Pro REST API servers.

The repository has three server variants: a JSON snapshot server whose
handlers filter in-memory collections directly in JS, and two SQL-backed
servers whose handlers delegate filtering to MySQL.  The snapshot handlers
are embedded directly from their JS source; the SQL queries are modelled by
their documented MySQL semantics.  JS numbers are embedded as rationals,
absent JSON fields as `Option`, and JS truthiness is made explicit.
-/

/-- JS truthiness of a possibly-absent string field: `undefined` and `""` are falsy. -/
def strTruthy : Option String → Bool
  | none => false
  | some s => s ≠ ""

/-- JS truthiness of a possibly-absent numeric field: `undefined` and `0` are falsy. -/
def numTruthy : Option ℚ → Bool
  | none => false
  | some q => q ≠ 0

/-- JS `hay.includes(needle)`: substring test. -/
def jsIncludes (hay needle : String) : Bool :=
  decide (needle.toList <:+: hay.toList)

/-- JS `s.toLowerCase()`, modelled as per-character lowering. -/
def jsToLower (s : String) : String :=
  String.mk (s.toList.map Char.toLower)

/-- A restaurant record, as stored in the snapshot data / SQL rows. -/
structure Restaurant where
  id : Int
  name : String
  address : Option String
  type : Option String
  rating : ℚ
  latitude : Option ℚ
  longitude : Option ℚ
deriving DecidableEq

/-- A dish record of the snapshot data: optional fields are `Option`,
`restaurants` is the embedded serving relation (restaurant identifiers). -/
structure Dish where
  id : Int
  name : String
  description : Option String
  category : Option String
  price : Option ℚ
  ingredients : Option (List String)
  restaurants : Option (List Int)
deriving DecidableEq

/-- The query parameters of `GET /api/dishes` as the handler receives them
from `req.query`: each is an absent or string value. -/
structure DishQuery where
  search : Option String
  category : Option String
  min_price : Option String
  max_price : Option String

/-- JS `String.prototype.split` with a one-character separator, on the
character list: always returns at least one (possibly empty) piece. -/
def splitOnChar (sep : Char) : List Char → List (List Char)
  | [] => [[]]
  | c :: rest =>
    let r := splitOnChar sep rest
    if c = sep then [] :: r
    else (c :: r.headD []) :: r.tail

/-- Whitespace as JS `trim` removes it (the characters occurring here). -/
def isWs (c : Char) : Bool :=
  c = ' ' || c = '\t' || c = '\n' || c = '\r'

/-- JS `s.trim()`. -/
def jsTrim (s : String) : String :=
  String.mk (((s.toList.dropWhile isWs).reverse.dropWhile isWs).reverse)

/-- JS `s.split(',')`. -/
def jsSplitComma (s : String) : List String :=
  (splitOnChar ',' s.toList).map String.mk

/-- Digit list to number; `none` unless it is one or more digits. -/
def digitsToNat (l : List Char) : Option ℕ :=
  if l ≠ [] ∧ l.all Char.isDigit then
    some (l.foldl (fun n c => 10 * n + (c.toNat - 48)) 0)
  else none

/-- Model of JS `parseFloat`, restricted to plain decimal numerals
`[-]digits[.digits]`.  Inputs outside this grammar map to `none`, which the
price comparisons below treat the way JS treats `NaN`: every comparison is
false. -/
def parseFloatQ (s : String) : Option ℚ :=
  let core : List Char → Option ℚ := fun b =>
    match splitOnChar '.' b with
    | [ip] => (digitsToNat ip).map fun n => (n : ℚ)
    | [ip, fp] => do
        let n ← digitsToNat ip
        let f ← digitsToNat fp
        pure ((n : ℚ) + (f : ℚ) / (10 : ℚ) ^ fp.length)
    | _ => none
  match s.toList with
  | '-' :: rest => (core rest).map Neg.neg
  | l => core l

/-- JS `dish.price >= bound`: false when the price is absent (`undefined`)
or the bound did not parse (`NaN`). -/
def priceGe (p : Option ℚ) (bound : Option ℚ) : Bool :=
  match p, bound with
  | some p, some b => b ≤ p
  | _, _ => false

/-- JS `dish.price <= bound`: false when the price is absent (`undefined`)
or the bound did not parse (`NaN`). -/
def priceLe (p : Option ℚ) (bound : Option ℚ) : Bool :=
  match p, bound with
  | some p, some b => p ≤ b
  | _, _ => false

/-- The `search` branch predicate of the snapshot `GET /api/dishes` handler:
`dish.name.toLowerCase().includes(sL) || (dish.category &&
dish.category.toLowerCase().includes(sL)) || (dish.ingredients &&
dish.ingredients.some(ing => ing.toLowerCase().includes(sL)))`,
where `sL` is the lower-cased search parameter. -/
def dishSearchHit (sL : String) (d : Dish) : Bool :=
  jsIncludes (jsToLower d.name) sL ||
    (match d.category with
     | some c => decide (c ≠ "") && jsIncludes (jsToLower c) sL
     | none => false) ||
    (match d.ingredients with
     | some ings => ings.any fun ing => jsIncludes (jsToLower ing) sL
     | none => false)

/-- The name comparison used by the handler sort
`filteredDishes.sort((a,b) => a.name.localeCompare(b.name))`, with the
locale comparison abstracted as `lc`. -/
def nameLe (lc : String → String → Ordering) (a b : Dish) : Prop :=
  lc a.name b.name ≠ Ordering.gt

instance (lc : String → String → Ordering) : DecidableRel (nameLe lc) :=
  fun a b => by unfold nameLe; infer_instance

/-- The handler sort: a comparison sort consistent with the comparator `lc`
on dish names. -/
def sortByName (lc : String → String → Ordering) (l : List Dish) : List Dish :=
  List.insertionSort (nameLe lc) l

/-- The snapshot `GET /api/dishes` handler: each filter is gated on JS
truthiness of its query parameter, applied in sequence, then the result is
sorted by name. -/
def filterDishes (lc : String → String → Ordering) (dishes : List Dish)
    (q : DishQuery) : List Dish :=
  let l1 := if strTruthy q.search then
      dishes.filter (dishSearchHit (jsToLower (q.search.getD ""))) else dishes
  let l2 := if strTruthy q.category then
      l1.filter (fun d => d.category == q.category) else l1
  let l3 := if strTruthy q.min_price then
      l2.filter (fun d => priceGe d.price (parseFloatQ (q.min_price.getD ""))) else l2
  let l4 := if strTruthy q.max_price then
      l3.filter (fun d => priceLe d.price (parseFloatQ (q.max_price.getD ""))) else l3
  sortByName lc l4

/-- The error taxonomy of the HTTP layer, as the handlers produce it. -/
inductive ApiError
  | invalidRequest
  | notFound
deriving DecidableEq

/-- The result object of `GET /api/search`; a `none` field is a key absent
from the returned JSON object. -/
structure SearchResults where
  restaurants : Option (List Restaurant)
  dishes : Option (List Dish)
deriving DecidableEq

/-- The term list of the snapshot search handler:
`query.split(',').map(q => q.trim().toLowerCase()).filter(q => q.length > 0)`. -/
def searchTerms (query : String) : List String :=
  ((jsSplitComma query).map fun q => jsToLower (jsTrim q)).filter
    fun q => q.toList.length > 0

/-- Restaurant match of the snapshot search handler:
`queries.some(q => r.name.toLowerCase().includes(q) || (r.address && ...) ||
(r.type && ...))`. -/
def restaurantSearchHit (qs : List String) (r : Restaurant) : Bool :=
  qs.any fun q =>
    jsIncludes (jsToLower r.name) q ||
      (match r.address with
       | some a => decide (a ≠ "") && jsIncludes (jsToLower a) q
       | none => false) ||
      (match r.type with
       | some t => decide (t ≠ "") && jsIncludes (jsToLower t) q
       | none => false)

/-- Dish match of the snapshot search handler, including its leading
`d && typeof d === 'object' && d.name` guard; ingredients are strings in
the embedding, so the per-ingredient `typeof` check always passes. -/
def dishSearchHitUnified (qs : List String) (d : Dish) : Bool :=
  decide (d.name ≠ "") &&
    qs.any fun q =>
      jsIncludes (jsToLower d.name) q ||
        (match d.category with
         | some c => decide (c ≠ "") && jsIncludes (jsToLower c) q
         | none => false) ||
        (match d.ingredients with
         | some ings => ings.any fun ing => jsIncludes (jsToLower ing) q
         | none => false)

/-- The snapshot `GET /api/search` handler: 400 on a falsy `query`, scope
defaulting to `"all"`, each result list capped by `.slice(0, 20)`. -/
def unifiedSearch (restaurantsData : List Restaurant) (dishesData : List Dish)
    (query : Option String) (scope : Option String) :
    Except ApiError SearchResults :=
  if !strTruthy query then .error .invalidRequest
  else
    let ty := scope.getD "all"
    let qs := searchTerms (query.getD "")
    let rs := if ty = "all" ∨ ty = "restaurants" then
        some ((restaurantsData.filter (restaurantSearchHit qs)).take 20) else none
    let ds := if ty = "all" ∨ ty = "dishes" then
        some ((dishesData.filter (dishSearchHitUnified qs)).take 20) else none
    .ok ⟨rs, ds⟩

/-- The snapshot `GET /api/restaurants/:id` handler:
`restaurantsData.find(r => r.id == req.params.id)`, 404 when absent. -/
def getRestaurant (restaurantsData : List Restaurant) (id : Int) :
    Except ApiError Restaurant :=
  match restaurantsData.find? (fun r => r.id == id) with
  | some r => .ok r
  | none => .error .notFound

/-- The snapshot `GET /api/dishes/:id` handler, symmetric to `getRestaurant`. -/
def getDish (dishesData : List Dish) (id : Int) : Except ApiError Dish :=
  match dishesData.find? (fun d => d.id == id) with
  | some d => .ok d
  | none => .error .notFound

/-- The serving relation recorded on a dish: its `restaurants` list, empty
when the field is absent. -/
def servedAt (d : Dish) : List Int := d.restaurants.getD []

/-- The snapshot `GET /api/restaurants/:id/menu` handler:
`dishesData.filter(dish => dish.restaurants &&
dish.restaurants.includes(restaurantId))`. -/
def menuFor (dishesData : List Dish) (restaurantId : Int) : List Dish :=
  dishesData.filter fun d =>
    match d.restaurants with
    | some rs => decide (restaurantId ∈ rs)
    | none => false

/-- The snapshot `GET /api/dishes/:id/restaurants` handler: find the dish,
return `[]` when it (or its `restaurants` field) is missing, else the
restaurants whose id the dish's serving relation includes. -/
def restaurantsServing (dishesData : List Dish)
    (restaurantsData : List Restaurant) (dishId : Int) : List Restaurant :=
  match dishesData.find? (fun d => d.id == dishId) with
  | none => []
  | some d =>
    match d.restaurants with
    | none => []
    | some rs => restaurantsData.filter fun r => decide (r.id ∈ rs)

/-- The snapshot `GET /api/restaurants` handler: `res.json(restaurantsData)`,
the collection exactly as loaded. -/
def listRestaurantsSnapshot (restaurantsData : List Restaurant) : List Restaurant :=
  restaurantsData

/-- Rating order used by the SQL variants (descending rating). -/
def ratingGe (a b : Restaurant) : Prop := b.rating ≤ a.rating

instance : DecidableRel ratingGe := fun a b => by unfold ratingGe; infer_instance

/-- Modelled from documented MySQL semantics: the SQL variants answer
`GET /api/restaurants` with `SELECT * FROM restaurants ORDER BY rating DESC`,
i.e. the stored rows sorted by rating in descending order. -/
def listRestaurantsSql (rows : List Restaurant) : List Restaurant :=
  List.insertionSort ratingGe rows

/-- A row of the SQL `dishes` table: `description`, `category` and
`ingredients` are text columns (`ingredients` a single string). -/
structure SqlDishRow where
  id : Int
  name : String
  description : String
  category : String
  price : Option ℚ
  ingredients : String
deriving DecidableEq

/-- Modelled from documented MySQL semantics: `col LIKE '%s%'` for a pattern
`s` free of `%`/`_` metacharacters is a case-insensitive substring test
(the default `utf8mb4` collation is case-insensitive). -/
def sqlLikeContains (col s : String) : Bool :=
  jsIncludes (jsToLower col) (jsToLower s)

/-- The `search` branch predicate of the SQL `GET /api/dishes` handlers:
`name LIKE ? OR description LIKE ? OR ingredients LIKE ?` with `%s%`. -/
def dishSearchHitSql (s : String) (row : SqlDishRow) : Bool :=
  sqlLikeContains row.name s || sqlLikeContains row.description s ||
    sqlLikeContains row.ingredients s

/-- A raw entry of the dishes snapshot file: either not a well-formed dish
object (null, not an object, or name missing / not a string), or a dish
record whose name may still be blank. -/
inductive RawDishEntry
  | invalid
  | valid (d : Dish)
deriving DecidableEq

/-- The load filter of the snapshot server: `dish && typeof dish === 'object'
&& dish.name && typeof dish.name === 'string' && dish.name.trim() !== ''`. -/
def keepDish : RawDishEntry → Option Dish
  | .invalid => none
  | .valid d => if d.name ≠ "" ∧ jsTrim d.name ≠ "" then some d else none

/-- The loaded dish collection of the snapshot server. -/
def loadDishes (raw : List RawDishEntry) : List Dish :=
  raw.filterMap keepDish

/-- Coordinate patching at snapshot load: a restaurant with a falsy latitude
or longitude gets `43.2 + x*0.1` / `76.8 + y*0.2` with `x`, `y` drawn from
`Math.random()`. -/
def patchRestaurant (xy : ℚ × ℚ) (r : Restaurant) : Restaurant :=
  if numTruthy r.latitude && numTruthy r.longitude then r
  else { r with latitude := some (43.2 + xy.1 * 0.1),
                longitude := some (76.8 + xy.2 * 0.2) }

/-- The loaded restaurant collection: `restaurantsData.map(...)` with the
successive `Math.random()` draws supplied as the stream `rnd`. -/
def loadRestaurants (rnd : ℕ → ℚ × ℚ) : ℕ → List Restaurant → List Restaurant
  | _, [] => []
  | i, r :: rs => patchRestaurant (rnd i) r :: loadRestaurants rnd (i + 1) rs

/-- A concrete locale comparison used in witnesses: lexicographic order on
the code points, which agrees with `localeCompare` on the names involved. -/
def lcAscii (a b : String) : Ordering :=
  if a < b then .lt else if a = b then .eq else .gt

/-! ### Specification-side predicates (the spec's wording, for refinement) -/

/-- Spec reading of the dish `search` predicate: case-insensitive substring
match against the name, the category, or any ingredient. -/
def specSearchHit (s : String) (d : Dish) : Prop :=
  jsIncludes (jsToLower d.name) (jsToLower s) = true ∨
    (∃ c, d.category = some c ∧ jsIncludes (jsToLower c) (jsToLower s) = true) ∨
    (∃ ings ing, d.ingredients = some ings ∧ ing ∈ ings ∧
      jsIncludes (jsToLower ing) (jsToLower s) = true)

/-- Spec reading of the conjunctive dish filter: every supplied (truthy)
predicate must hold; absent predicates impose no constraint. -/
def dishMatches (q : DishQuery) (d : Dish) : Prop :=
  (∀ s, q.search = some s → s ≠ "" → specSearchHit s d) ∧
    (∀ c, q.category = some c → c ≠ "" → d.category = some c) ∧
    (∀ m, q.min_price = some m → m ≠ "" →
      ∃ p b, d.price = some p ∧ parseFloatQ m = some b ∧ b ≤ p) ∧
    (∀ m, q.max_price = some m → m ≠ "" →
      ∃ p b, d.price = some p ∧ parseFloatQ m = some b ∧ p ≤ b)

/-- Boolean form of the conjunctive filter, used in the permutation statement. -/
def dishMatchesB (q : DishQuery) (d : Dish) : Bool :=
  (!strTruthy q.search || dishSearchHit (jsToLower (q.search.getD "")) d) &&
    (!strTruthy q.category || d.category == q.category) &&
    (!strTruthy q.min_price || priceGe d.price (parseFloatQ (q.min_price.getD ""))) &&
    (!strTruthy q.max_price || priceLe d.price (parseFloatQ (q.max_price.getD "")))

/-- Spec reading of a unified-search restaurant match: some term is a
substring of the name, the address, or the type. -/
def specRestaurantHit (qs : List String) (r : Restaurant) : Prop :=
  ∃ q ∈ qs, jsIncludes (jsToLower r.name) q = true ∨
    (∃ a, r.address = some a ∧ jsIncludes (jsToLower a) q = true) ∨
    (∃ t, r.type = some t ∧ jsIncludes (jsToLower t) q = true)

/-- Spec reading of a unified-search dish match: some term is a substring of
the name, the category, or an ingredient. -/
def specDishHit (qs : List String) (d : Dish) : Prop :=
  ∃ q ∈ qs, jsIncludes (jsToLower d.name) q = true ∨
    (∃ c, d.category = some c ∧ jsIncludes (jsToLower c) q = true) ∨
    (∃ ings ing, d.ingredients = some ings ∧ ing ∈ ings ∧
      jsIncludes (jsToLower ing) q = true)

/-! ### Concrete records used in scenarios, counterexamples and witnesses -/

def demoPilaf : Dish := ⟨1, "Pilaf", none, none, some 10, none, none⟩

def demoBorscht : Dish := ⟨2, "Borscht", none, none, some 6, none, none⟩

def dNeg : Dish := ⟨3, "Neg", none, none, some (-1), none, none⟩

def dSoup : Dish := ⟨7, "X", none, some "Soup", none, none, none⟩

def rowSoup : SqlDishRow := ⟨7, "X", "", "Soup", none, ""⟩

def rLow : Restaurant := ⟨1, "Low", none, none, 1, some 50, some 70⟩

def rHigh : Restaurant := ⟨2, "High", none, none, 5, some 51, some 71⟩

def dServed : Dish := ⟨4, "Plov", none, none, some 9, some ["rice"], some [1, 8]⟩

/-! ### Basic helper lemmas -/

theorem string_eq_of_toList_eq {s t : String} (h : s.toList = t.toList) : s = t := by
  cases s; cases t; cases h; rfl

theorem jsToLower_toList (s : String) :
    (jsToLower s).toList = s.toList.map Char.toLower := rfl

theorem jsToLower_ne_empty {s : String} (hs : s ≠ "") : jsToLower s ≠ "" := by
  intro h
  apply hs
  apply string_eq_of_toList_eq
  have h' := congrArg String.toList h
  rw [jsToLower_toList] at h'
  simpa using h'

theorem jsIncludes_empty_hay {t : String} (ht : t ≠ "") : jsIncludes "" t = false := by
  unfold jsIncludes
  simp only [decide_eq_false_iff_not]
  intro h
  have h' : ∃ u v, u ++ t.toList ++ v = ([] : List Char) := h
  obtain ⟨u, v, huv⟩ := h'
  simp only [List.append_eq_nil] at huv
  exact ht (string_eq_of_toList_eq huv.1.2)

theorem jsToLower_empty : jsToLower "" = "" :=
  string_eq_of_toList_eq rfl

/-- A truthiness-guarded optional string field matches a nonempty term
exactly when the field is present and matches. -/
theorem guard_field_iff {f : Option String} {q : String} (hq : q ≠ "") :
    (match f with
     | some a => decide (a ≠ "") && jsIncludes (jsToLower a) q
     | none => false) = true ↔
      ∃ a, f = some a ∧ jsIncludes (jsToLower a) q = true := by
  cases f with
  | none => simp
  | some a =>
    by_cases ha : a = ""
    · subst ha
      simp [jsToLower_empty, jsIncludes_empty_hay hq]
    · simp [ha]

/-- The ingredients clause is an existential over the ingredient list. -/
theorem ing_clause_iff {f : Option (List String)} {q : String} :
    (match f with
     | some ings => ings.any fun ing => jsIncludes (jsToLower ing) q
     | none => false) = true ↔
      ∃ ings ing, f = some ings ∧ ing ∈ ings ∧
        jsIncludes (jsToLower ing) q = true := by
  cases f with
  | none => simp
  | some ings => simp [List.any_eq_true]

/-- For a nonempty search string the handler's guarded predicate coincides
with the spec's substring predicate. -/
theorem dishSearchHit_iff_spec {s : String} (hs : s ≠ "") (d : Dish) :
    dishSearchHit (jsToLower s) d = true ↔ specSearchHit s d := by
  have hsl := jsToLower_ne_empty hs
  unfold dishSearchHit specSearchHit
  simp only [Bool.or_eq_true]
  rw [or_assoc]
  exact or_congr Iff.rfl (or_congr (guard_field_iff hsl) ing_clause_iff)

theorem priceGe_iff {p bound : Option ℚ} :
    priceGe p bound = true ↔ ∃ pv bv, p = some pv ∧ bound = some bv ∧ bv ≤ pv := by
  cases p <;> cases bound <;> simp [priceGe]

theorem priceLe_iff {p bound : Option ℚ} :
    priceLe p bound = true ↔ ∃ pv bv, p = some pv ∧ bound = some bv ∧ pv ≤ bv := by
  cases p <;> cases bound <;> simp [priceLe]

theorem compSearch_iff (q : DishQuery) (d : Dish) :
    (!strTruthy q.search || dishSearchHit (jsToLower (q.search.getD "")) d) = true ↔
      (∀ s, q.search = some s → s ≠ "" → specSearchHit s d) := by
  cases hqs : q.search with
  | none => simp [strTruthy]
  | some s =>
    by_cases hs : s = ""
    · subst hs; simp [strTruthy]
    · have ht : strTruthy (some s) = true := by simp [strTruthy, hs]
      rw [ht]
      simp only [Bool.not_true, Bool.false_or, Option.getD_some]
      constructor
      · rintro h s' h' hs'
        cases h'
        exact (dishSearchHit_iff_spec hs d).mp h
      · intro h
        exact (dishSearchHit_iff_spec hs d).mpr (h s rfl hs)

theorem compCategory_iff (q : DishQuery) (d : Dish) :
    (!strTruthy q.category || d.category == q.category) = true ↔
      (∀ c, q.category = some c → c ≠ "" → d.category = some c) := by
  cases hqc : q.category with
  | none => simp [strTruthy]
  | some c =>
    by_cases hc : c = ""
    · subst hc; simp [strTruthy]
    · have ht : strTruthy (some c) = true := by simp [strTruthy, hc]
      rw [ht]
      simp only [Bool.not_true, Bool.false_or, beq_iff_eq]
      constructor
      · rintro h c' h' hc'
        cases h'
        exact h
      · intro h
        exact h c rfl hc

theorem compMin_iff (q : DishQuery) (d : Dish) :
    (!strTruthy q.min_price || priceGe d.price (parseFloatQ (q.min_price.getD ""))) = true ↔
      (∀ m, q.min_price = some m → m ≠ "" →
        ∃ p b, d.price = some p ∧ parseFloatQ m = some b ∧ b ≤ p) := by
  cases hqm : q.min_price with
  | none => simp [strTruthy]
  | some m =>
    by_cases hm : m = ""
    · subst hm; simp [strTruthy]
    · have ht : strTruthy (some m) = true := by simp [strTruthy, hm]
      rw [ht]
      simp only [Bool.not_true, Bool.false_or, Option.getD_some, priceGe_iff]
      constructor
      · rintro h m' h' hm'
        cases h'
        exact h
      · intro h
        exact h m rfl hm

theorem compMax_iff (q : DishQuery) (d : Dish) :
    (!strTruthy q.max_price || priceLe d.price (parseFloatQ (q.max_price.getD ""))) = true ↔
      (∀ m, q.max_price = some m → m ≠ "" →
        ∃ p b, d.price = some p ∧ parseFloatQ m = some b ∧ p ≤ b) := by
  cases hqx : q.max_price with
  | none => simp [strTruthy]
  | some m =>
    by_cases hm : m = ""
    · subst hm; simp [strTruthy]
    · have ht : strTruthy (some m) = true := by simp [strTruthy, hm]
      rw [ht]
      simp only [Bool.not_true, Bool.false_or, Option.getD_some, priceLe_iff]
      constructor
      · rintro h m' h' hm'
        cases h'
        exact h
      · intro h
        exact h m rfl hm

/-- The boolean conjunctive filter agrees with the spec's reading. -/
theorem dishMatchesB_iff (q : DishQuery) (d : Dish) :
    dishMatchesB q d = true ↔ dishMatches q d := by
  unfold dishMatchesB dishMatches
  simp only [Bool.and_eq_true]
  rw [and_assoc, and_assoc]
  exact and_congr (compSearch_iff q d) (and_congr (compCategory_iff q d)
    (and_congr (compMin_iff q d) (compMax_iff q d)))

/-- The dish pipeline is one conjunctive filter followed by the sort. -/
theorem filterDishes_eq_filter (lc : String → String → Ordering)
    (dishes : List Dish) (q : DishQuery) :
    filterDishes lc dishes q = sortByName lc (dishes.filter (dishMatchesB q)) := by
  unfold filterDishes
  cases hs : strTruthy q.search <;> cases hc : strTruthy q.category <;>
      cases hm : strTruthy q.min_price <;> cases hx : strTruthy q.max_price <;>
    simp only [hs, hc, hm, hx, if_true, if_false, List.filter_filter,
      Bool.false_eq_true, ite_false, ite_true]
  all_goals congr 1
  all_goals first
    | (symm
       rw [List.filter_eq_self]
       intro a _
       simp [dishMatchesB, hs, hc, hm, hx])
    | (apply List.filter_congr
       intro a _
       simp [dishMatchesB, hs, hc, hm, hx, Bool.and_assoc, Bool.and_comm,
         Bool.and_left_comm])

/-! ### Properties of the concrete comparator -/

theorem nameLe_lcAscii_iff (a b : Dish) : nameLe lcAscii a b ↔ a.name ≤ b.name := by
  unfold nameLe lcAscii
  rcases lt_trichotomy a.name b.name with h | h | h
  · simp [h, le_of_lt h]
  · simp [h]
  · have h1 : ¬ a.name < b.name := lt_asymm h
    have h2 : a.name ≠ b.name := ne_of_gt h
    simp [h1, h2, not_le.mpr h]

theorem nameLe_lcAscii_total : ∀ a b : Dish, nameLe lcAscii a b ∨ nameLe lcAscii b a := by
  intro a b
  rw [nameLe_lcAscii_iff, nameLe_lcAscii_iff]
  exact le_total _ _

theorem nameLe_lcAscii_trans :
    ∀ a b c : Dish, nameLe lcAscii a b → nameLe lcAscii b c → nameLe lcAscii a c := by
  intro a b c hab hbc
  rw [nameLe_lcAscii_iff] at *
  exact le_trans hab hbc

/-! ### C1 -/

/-- C1: for every dish collection and predicate set, `filterDishes` returns
exactly (as a multiset) the dishes satisfying every supplied predicate
conjunctively, absent predicates imposing no constraint; the result is
sorted by name under the locale comparator; and on the concrete collection
`[Pilaf 10, Borscht 6]` with only `max_price=8` it returns exactly the
Borscht record. -/
theorem C1_filterDishes_conjunction_sorted
    (lc : String → String → Ordering)
    (htot : ∀ a b : Dish, nameLe lc a b ∨ nameLe lc b a)
    (htrans : ∀ a b c : Dish, nameLe lc a b → nameLe lc b c → nameLe lc a c)
    (dishes : List Dish) (q : DishQuery) :
    (filterDishes lc dishes q).Perm (dishes.filter (dishMatchesB q)) ∧
      (∀ d, dishMatchesB q d = true ↔ dishMatches q d) ∧
      List.Sorted (nameLe lc) (filterDishes lc dishes q) ∧
      filterDishes lc [demoPilaf, demoBorscht] ⟨none, none, none, some "8"⟩ =
        [demoBorscht] := by
  haveI : IsTotal Dish (nameLe lc) := ⟨htot⟩
  haveI : IsTrans Dish (nameLe lc) := ⟨htrans⟩
  refine ⟨?_, dishMatchesB_iff q, ?_, rfl⟩
  · rw [filterDishes_eq_filter]
    exact List.perm_insertionSort _ _
  · rw [filterDishes_eq_filter]
    exact List.sorted_insertionSort _ _

/-- Witness for C1 at the comparator `lcAscii`, the concrete scenario
collection and the `max_price=8` query. -/
theorem C1_filterDishes_witness :
    (∀ a b : Dish, nameLe lcAscii a b ∨ nameLe lcAscii b a) ∧
      (∀ a b c : Dish, nameLe lcAscii a b → nameLe lcAscii b c → nameLe lcAscii a c) ∧
      ((filterDishes lcAscii [demoPilaf, demoBorscht]
            ⟨none, none, none, some "8"⟩).Perm
          (([demoPilaf, demoBorscht]).filter
            (dishMatchesB ⟨none, none, none, some "8"⟩)) ∧
        (∀ d, dishMatchesB ⟨none, none, none, some "8"⟩ d = true ↔
          dishMatches ⟨none, none, none, some "8"⟩ d) ∧
        List.Sorted (nameLe lcAscii)
          (filterDishes lcAscii [demoPilaf, demoBorscht]
            ⟨none, none, none, some "8"⟩) ∧
        filterDishes lcAscii [demoPilaf, demoBorscht]
            ⟨none, none, none, some "8"⟩ = [demoBorscht]) :=
  ⟨nameLe_lcAscii_total, nameLe_lcAscii_trans,
    C1_filterDishes_conjunction_sorted lcAscii nameLe_lcAscii_total
      nameLe_lcAscii_trans [demoPilaf, demoBorscht] ⟨none, none, none, some "8"⟩⟩

/-! ### C2 -/

theorem searchTerms_ne_empty (s : String) : ∀ q ∈ searchTerms s, q ≠ "" := by
  intro q hq
  unfold searchTerms at hq
  rw [List.mem_filter] at hq
  intro h
  subst h
  simpa using hq.2

theorem restaurantSearchHit_iff_spec {qs : List String} (hqs : ∀ q ∈ qs, q ≠ "")
    (r : Restaurant) : restaurantSearchHit qs r = true ↔ specRestaurantHit qs r := by
  unfold restaurantSearchHit specRestaurantHit
  rw [List.any_eq_true]
  refine exists_congr fun q => and_congr_right fun hq => ?_
  simp only [Bool.or_eq_true]
  rw [or_assoc]
  exact or_congr Iff.rfl
    (or_congr (guard_field_iff (hqs q hq)) (guard_field_iff (hqs q hq)))

theorem dishSearchHitUnified_iff_spec {qs : List String} (hqs : ∀ q ∈ qs, q ≠ "")
    {d : Dish} (hd : d.name ≠ "") :
    dishSearchHitUnified qs d = true ↔ specDishHit qs d := by
  unfold dishSearchHitUnified specDishHit
  simp only [Bool.and_eq_true, decide_eq_true_eq]
  rw [and_iff_right hd, List.any_eq_true]
  refine exists_congr fun q => and_congr_right fun hq => ?_
  simp only [Bool.or_eq_true]
  rw [or_assoc]
  exact or_congr Iff.rfl
    (or_congr (guard_field_iff (hqs q hq)) ing_clause_iff)

/-- C2: for a nonempty query, `unifiedSearch` splits on commas, trims,
lower-cases and drops empty terms, matches a record when ANY term is a
substring of ANY searchable field, and caps each scope-gated list at the
first 20 matches in collection order. -/
theorem C2_unifiedSearch_spec
    (restaurantsData : List Restaurant) (dishesData : List Dish)
    (hd : ∀ d ∈ dishesData, d.name ≠ "") (s : String) (hs : s ≠ "")
    (scope : Option String) :
    unifiedSearch restaurantsData dishesData (some s) scope =
      .ok ⟨if scope.getD "all" = "all" ∨ scope.getD "all" = "restaurants" then
             some ((restaurantsData.filter
               (restaurantSearchHit (searchTerms s))).take 20)
           else none,
           if scope.getD "all" = "all" ∨ scope.getD "all" = "dishes" then
             some ((dishesData.filter
               (dishSearchHitUnified (searchTerms s))).take 20)
           else none⟩ ∧
      (∀ r, restaurantSearchHit (searchTerms s) r = true ↔
        specRestaurantHit (searchTerms s) r) ∧
      (∀ d ∈ dishesData, dishSearchHitUnified (searchTerms s) d = true ↔
        specDishHit (searchTerms s) d) ∧
      searchTerms s =
        ((jsSplitComma s).map fun t => jsToLower (jsTrim t)).filter
          fun t => t ≠ "" := by
  refine ⟨?_, ?_, ?_, ?_⟩
  · unfold unifiedSearch
    simp [strTruthy, hs]
  · exact fun r => restaurantSearchHit_iff_spec (searchTerms_ne_empty s) r
  · exact fun d hdm =>
      dishSearchHitUnified_iff_spec (searchTerms_ne_empty s) (hd d hdm)
  · unfold searchTerms
    apply List.filter_congr
    intro t _
    cases t with
    | mk cs =>
      cases cs with
      | nil => rfl
      | cons c cs' =>
        rw [decide_eq_decide]
        simp [String.ext_iff]

/-- Witness for C2 on a two-term query over the demo collections. -/
theorem C2_unifiedSearch_witness :
    (∀ d ∈ [demoPilaf, demoBorscht], d.name ≠ "") ∧
      ("Pizza, Sushi" : String) ≠ "" ∧
      (unifiedSearch [rLow, rHigh] [demoPilaf, demoBorscht]
          (some "Pizza, Sushi") none =
        .ok ⟨if (none : Option String).getD "all" = "all" ∨
                (none : Option String).getD "all" = "restaurants" then
               some (([rLow, rHigh].filter
                 (restaurantSearchHit (searchTerms "Pizza, Sushi"))).take 20)
             else none,
             if (none : Option String).getD "all" = "all" ∨
                (none : Option String).getD "all" = "dishes" then
               some (([demoPilaf, demoBorscht].filter
                 (dishSearchHitUnified (searchTerms "Pizza, Sushi"))).take 20)
             else none⟩ ∧
        (∀ r, restaurantSearchHit (searchTerms "Pizza, Sushi") r = true ↔
          specRestaurantHit (searchTerms "Pizza, Sushi") r) ∧
        (∀ d ∈ [demoPilaf, demoBorscht],
          dishSearchHitUnified (searchTerms "Pizza, Sushi") d = true ↔
            specDishHit (searchTerms "Pizza, Sushi") d) ∧
        searchTerms "Pizza, Sushi" =
          ((jsSplitComma "Pizza, Sushi").map fun t => jsToLower (jsTrim t)).filter
            fun t => t ≠ "") :=
  ⟨by decide, by decide,
    C2_unifiedSearch_spec [rLow, rHigh] [demoPilaf, demoBorscht]
      (by decide) "Pizza, Sushi" (by decide) none⟩

/-! ### C3 -/

/-- C3 counterexample: the snapshot variant returns the loaded collection
as is, so with ratings `[1, 5]` its `GET /api/restaurants` response is not
sorted by rating in descending order. -/
theorem C3_snapshot_unsorted_counterexample :
    listRestaurantsSnapshot [rLow, rHigh] = [rLow, rHigh] ∧
      ¬ List.Sorted ratingGe (listRestaurantsSnapshot [rLow, rHigh]) := by
  refine ⟨rfl, ?_⟩
  intro h
  have hrel := List.rel_of_sorted_cons h rHigh (by simp)
  have h5 : ¬ ((5 : ℚ) ≤ 1) := by norm_num
  exact h5 hrel

/-- C3 (amended): the SQL variants return the rows sorted by rating in
descending order (a permutation of the stored rows); the snapshot variant
returns the loaded collection unchanged, in load order. -/
theorem C3_listRestaurants_amended (rows data : List Restaurant) :
    List.Sorted ratingGe (listRestaurantsSql rows) ∧
      (listRestaurantsSql rows).Perm rows ∧
      listRestaurantsSnapshot data = data := by
  haveI : IsTotal Restaurant ratingGe := ⟨fun a b => le_total b.rating a.rating⟩
  haveI : IsTrans Restaurant ratingGe :=
    ⟨fun _ _ _ h1 h2 => le_trans h2 h1⟩
  exact ⟨List.sorted_insertionSort _ _, List.perm_insertionSort _ _, rfl⟩

/-! ### C4 -/

/-- C4 counterexample: on the same logical record (category "Soup", empty
description, no matching name or ingredients) the snapshot predicate
accepts the search "soup" while the SQL variants' predicate rejects it, so
the claimed predicate does not hold in every server variant. -/
theorem C4_variant_divergence_counterexample :
    dishSearchHit (jsToLower "soup") dSoup = true ∧
      dishSearchHitSql "soup" rowSoup = false := by
  constructor <;> decide

/-- C4 (amended): in the snapshot variant the search predicate is the
case-insensitive substring match against name OR category OR any
ingredient; in the SQL variants it matches name OR description OR the
ingredients text column instead (category is not searched). -/
theorem C4_search_predicate_amended {s : String} (hs : s ≠ "")
    (d : Dish) (row : SqlDishRow) :
    (dishSearchHit (jsToLower s) d = true ↔ specSearchHit s d) ∧
      (dishSearchHitSql s row = true ↔
        (sqlLikeContains row.name s = true ∨
          sqlLikeContains row.description s = true ∨
          sqlLikeContains row.ingredients s = true)) := by
  refine ⟨dishSearchHit_iff_spec hs d, ?_⟩
  unfold dishSearchHitSql
  simp [Bool.or_eq_true, or_assoc]

/-- Witness for C4 (amended) at the search "soup" and the concrete records. -/
theorem C4_search_predicate_witness :
    ("soup" : String) ≠ "" ∧
      ((dishSearchHit (jsToLower "soup") dSoup = true ↔
          specSearchHit "soup" dSoup) ∧
        (dishSearchHitSql "soup" rowSoup = true ↔
          (sqlLikeContains rowSoup.name "soup" = true ∨
            sqlLikeContains rowSoup.description "soup" = true ∨
            sqlLikeContains rowSoup.ingredients "soup" = true))) :=
  ⟨by decide, C4_search_predicate_amended (by decide) dSoup rowSoup⟩

/-! ### C5 -/

/-- C5: the menu of a restaurant id is exactly the dishes whose serving
relation contains it (empty when none does), and the restaurants serving a
dish id are exactly the stored restaurants listed in that dish's serving
relation, with an empty list (not an error) when the dish is absent. -/
theorem C5_menu_and_restaurantsServing
    (dishesData : List Dish) (restaurantsData : List Restaurant)
    (rid did : Int) :
    (∀ d, d ∈ menuFor dishesData rid ↔ d ∈ dishesData ∧ rid ∈ servedAt d) ∧
      ((∀ d ∈ dishesData, rid ∉ servedAt d) → menuFor dishesData rid = []) ∧
      (∀ d, dishesData.find? (fun d0 => d0.id == did) = some d →
        restaurantsServing dishesData restaurantsData did =
          restaurantsData.filter fun r => decide (r.id ∈ servedAt d)) ∧
      (dishesData.find? (fun d0 => d0.id == did) = none →
        restaurantsServing dishesData restaurantsData did = []) := by
  have hmem : ∀ d, d ∈ menuFor dishesData rid ↔ d ∈ dishesData ∧ rid ∈ servedAt d := by
    intro d
    unfold menuFor
    rw [List.mem_filter]
    refine and_congr_right fun _ => ?_
    cases hr : d.restaurants <;> simp [servedAt, hr]
  refine ⟨hmem, ?_, ?_, ?_⟩
  · intro hnone
    rw [List.eq_nil_iff_forall_not_mem]
    intro d hd
    obtain ⟨hd1, hd2⟩ := (hmem d).mp hd
    exact hnone d hd1 hd2
  · intro d h
    unfold restaurantsServing
    rw [h]
    cases hr : d.restaurants with
    | none => simp [servedAt, hr]
    | some rs => simp [servedAt, hr]
  · intro h
    unfold restaurantsServing
    rw [h]

/-- Witness for C5 on a one-dish, two-restaurant collection: dish `dServed` is
served at restaurant 1 (present) and 8 (dangling). -/
theorem C5_menu_witness :
    (∀ d, d ∈ menuFor [dServed] 1 ↔ d ∈ [dServed] ∧ (1 : Int) ∈ servedAt d) ∧
      ((∀ d ∈ [dServed], (1 : Int) ∉ servedAt d) → menuFor [dServed] 1 = []) ∧
      (∀ d, ([dServed].find? (fun d0 => d0.id == (4 : Int))) = some d →
        restaurantsServing [dServed] [rLow, rHigh] 4 =
          [rLow, rHigh].filter fun r => decide (r.id ∈ servedAt d)) ∧
      (([dServed].find? (fun d0 => d0.id == (4 : Int))) = none →
        restaurantsServing [dServed] [rLow, rHigh] 4 = []) :=
  C5_menu_and_restaurantsServing [dServed] [rLow, rHigh] 1 4

/-! ### C6 -/

/-- C6: `unifiedSearch` answers `InvalidRequest` (HTTP 400) exactly when
the query parameter is absent or the empty string. -/
theorem C6_unifiedSearch_invalid_iff
    (restaurantsData : List Restaurant) (dishesData : List Dish)
    (query scope : Option String) :
    unifiedSearch restaurantsData dishesData query scope =
        .error .invalidRequest ↔
      query = none ∨ query = some "" := by
  unfold unifiedSearch
  cases query with
  | none => simp [strTruthy]
  | some s =>
    by_cases hs : s = ""
    · subst hs; simp [strTruthy]
    · simp [strTruthy, hs]

/-! ### C7 -/

theorem find_by_id_unique {α : Type} (key : α → Int) (l : List α)
    (hu : (l.map key).Nodup) (x : α) (hx : x ∈ l) :
    l.find? (fun y => key y == key x) = some x := by
  induction l with
  | nil => cases hx
  | cons a l ih =>
    rw [List.map_cons, List.nodup_cons] at hu
    rcases List.mem_cons.mp hx with rfl | hx'
    · simp [List.find?_cons]
    · have hfalse : (key a == key x) = false := by
        rw [beq_eq_false_iff_ne]
        intro h
        exact hu.1 (h ▸ List.mem_map_of_mem key hx')
      rw [List.find?_cons, hfalse]
      exact ih hu.2 hx'

theorem find_none_of_id_not_mem {α : Type} (key : α → Int) (l : List α)
    (i : Int) (hi : i ∉ l.map key) :
    l.find? (fun y => key y == i) = none := by
  rw [List.find?_eq_none]
  intro y hy
  simp only [beq_iff_eq]
  intro h
  exact hi (h ▸ List.mem_map_of_mem key hy)

/-- C7: with unique identifiers, `getRestaurant` returns every stored
restaurant unchanged under its own id and `NotFound` (HTTP 404) for any id
not in the collection; the same holds for `getDish`. -/
theorem C7_get_by_id
    (restaurantsData : List Restaurant) (dishesData : List Dish)
    (hru : (restaurantsData.map (fun r => r.id)).Nodup)
    (hdu : (dishesData.map (fun d => d.id)).Nodup) :
    (∀ R ∈ restaurantsData, getRestaurant restaurantsData R.id = .ok R) ∧
      (∀ i : Int, i ∉ restaurantsData.map (fun r => r.id) →
        getRestaurant restaurantsData i = .error .notFound) ∧
      (∀ D ∈ dishesData, getDish dishesData D.id = .ok D) ∧
      (∀ i : Int, i ∉ dishesData.map (fun d => d.id) →
        getDish dishesData i = .error .notFound) := by
  refine ⟨?_, ?_, ?_, ?_⟩
  · intro R hR
    unfold getRestaurant
    rw [find_by_id_unique (fun r => r.id) restaurantsData hru R hR]
  · intro i hi
    unfold getRestaurant
    rw [find_none_of_id_not_mem (fun r => r.id) restaurantsData i hi]
  · intro D hD
    unfold getDish
    rw [find_by_id_unique (fun d => d.id) dishesData hdu D hD]
  · intro i hi
    unfold getDish
    rw [find_none_of_id_not_mem (fun d => d.id) dishesData i hi]

/-- Witness for C7 on concrete two-restaurant / two-dish collections. -/
theorem C7_get_by_id_witness :
    ([rLow, rHigh].map (fun r => r.id)).Nodup ∧
      ([demoPilaf, demoBorscht].map (fun d => d.id)).Nodup ∧
      ((∀ R ∈ [rLow, rHigh], getRestaurant [rLow, rHigh] R.id = .ok R) ∧
        (∀ i : Int, i ∉ [rLow, rHigh].map (fun r => r.id) →
          getRestaurant [rLow, rHigh] i = .error .notFound) ∧
        (∀ D ∈ [demoPilaf, demoBorscht],
          getDish [demoPilaf, demoBorscht] D.id = .ok D) ∧
        (∀ i : Int, i ∉ [demoPilaf, demoBorscht].map (fun d => d.id) →
          getDish [demoPilaf, demoBorscht] i = .error .notFound)) :=
  ⟨by decide, by decide,
    C7_get_by_id [rLow, rHigh] [demoPilaf, demoBorscht] (by decide) (by decide)⟩

/-! ### C8 -/

theorem keepDish_eq_some {e : RawDishEntry} {d : Dish} :
    keepDish e = some d ↔
      e = RawDishEntry.valid d ∧ d.name ≠ "" ∧ jsTrim d.name ≠ "" := by
  cases e with
  | invalid => simp [keepDish]
  | valid d0 =>
    simp only [keepDish]
    by_cases h : d0.name ≠ "" ∧ jsTrim d0.name ≠ ""
    · rw [if_pos h]
      constructor
      · rintro hd
        cases hd
        exact ⟨rfl, h⟩
      · rintro ⟨hval, -, -⟩
        cases hval
        rfl
    · rw [if_neg h]
      constructor
      · intro hh
        exact absurd hh (by simp)
      · rintro ⟨hval, h1, h2⟩
        cases hval
        exact absurd ⟨h1, h2⟩ h

theorem patchRestaurant_spec (xy : ℚ × ℚ)
    (hx : 0 ≤ xy.1 ∧ xy.1 < 1) (hy : 0 ≤ xy.2 ∧ xy.2 < 1) (r : Restaurant) :
    numTruthy (patchRestaurant xy r).latitude = true ∧
      numTruthy (patchRestaurant xy r).longitude = true ∧
      (¬(numTruthy r.latitude = true ∧ numTruthy r.longitude = true) →
        ∃ lat lng, (patchRestaurant xy r).latitude = some lat ∧
          (patchRestaurant xy r).longitude = some lng ∧
          43.2 ≤ lat ∧ lat ≤ 43.3 ∧ 76.8 ≤ lng ∧ lng ≤ 77.0) := by
  unfold patchRestaurant
  cases hb : (numTruthy r.latitude && numTruthy r.longitude) with
  | true =>
    rw [if_pos rfl]
    rw [Bool.and_eq_true] at hb
    exact ⟨hb.1, hb.2, fun hc => absurd ⟨hb.1, hb.2⟩ hc⟩
  | false =>
    rw [if_neg (by decide : ¬ (false = true))]
    refine ⟨?_, ?_, fun _ => ⟨43.2 + xy.1 * 0.1, 76.8 + xy.2 * 0.2,
      rfl, rfl, ?_, ?_, ?_, ?_⟩⟩
    · simp only [numTruthy, decide_eq_true_eq]
      nlinarith [hx.1]
    · simp only [numTruthy, decide_eq_true_eq]
      nlinarith [hy.1]
    · nlinarith [hx.1]
    · nlinarith [hx.2]
    · nlinarith [hy.1]
    · nlinarith [hy.2]

theorem loadRestaurants_forall (rnd : ℕ → ℚ × ℚ)
    (hr : ∀ n, 0 ≤ (rnd n).1 ∧ (rnd n).1 < 1 ∧ 0 ≤ (rnd n).2 ∧ (rnd n).2 < 1) :
    ∀ (i : ℕ) (raw : List Restaurant),
      List.Forall₂ (fun r r' =>
        numTruthy r'.latitude = true ∧ numTruthy r'.longitude = true ∧
          (¬(numTruthy r.latitude = true ∧ numTruthy r.longitude = true) →
            ∃ lat lng, r'.latitude = some lat ∧ r'.longitude = some lng ∧
              43.2 ≤ lat ∧ lat ≤ 43.3 ∧ 76.8 ≤ lng ∧ lng ≤ 77.0))
        raw (loadRestaurants rnd i raw) := by
  intro i raw
  induction raw generalizing i with
  | nil => exact List.Forall₂.nil
  | cons r rs ih =>
    exact List.Forall₂.cons
      (patchRestaurant_spec (rnd i) ⟨(hr i).1, (hr i).2.1⟩
        ⟨(hr i).2.2.1, (hr i).2.2.2⟩ r)
      (ih (i + 1))

/-- C8: after the snapshot load, the kept dishes are exactly the well-formed
raw records with a nonempty, non-blank name, and every loaded restaurant
has truthy coordinates, a restaurant that lacked them receiving values
inside the fallback box [43.2, 43.3] x [76.8, 77.0]; the handlers never
produce a new state, so the invariant persists. -/
theorem C8_load_invariants (rawD : List RawDishEntry) (rawR : List Restaurant)
    (rnd : ℕ → ℚ × ℚ)
    (hr : ∀ n, 0 ≤ (rnd n).1 ∧ (rnd n).1 < 1 ∧ 0 ≤ (rnd n).2 ∧ (rnd n).2 < 1) :
    (∀ d, d ∈ loadDishes rawD ↔
      RawDishEntry.valid d ∈ rawD ∧ d.name ≠ "" ∧ jsTrim d.name ≠ "") ∧
      List.Forall₂ (fun r r' =>
        numTruthy r'.latitude = true ∧ numTruthy r'.longitude = true ∧
          (¬(numTruthy r.latitude = true ∧ numTruthy r.longitude = true) →
            ∃ lat lng, r'.latitude = some lat ∧ r'.longitude = some lng ∧
              43.2 ≤ lat ∧ lat ≤ 43.3 ∧ 76.8 ≤ lng ∧ lng ≤ 77.0))
        rawR (loadRestaurants rnd 0 rawR) := by
  constructor
  · intro d
    unfold loadDishes
    rw [List.mem_filterMap]
    constructor
    · rintro ⟨e, he, hk⟩
      obtain ⟨rfl, h1, h2⟩ := keepDish_eq_some.mp hk
      exact ⟨he, h1, h2⟩
    · rintro ⟨he, h1, h2⟩
      exact ⟨RawDishEntry.valid d, he, keepDish_eq_some.mpr ⟨rfl, h1, h2⟩⟩
  · exact loadRestaurants_forall rnd hr 0 rawR

/-- Witness for C8: a raw dish file with a malformed entry, a blank-named
dish and a valid dish, and one restaurant lacking coordinates, with all
pseudo-random draws equal to 0. -/
theorem C8_load_invariants_witness :
    (∀ n : ℕ, 0 ≤ ((fun _ : ℕ => ((0 : ℚ), (0 : ℚ))) n).1 ∧
        ((fun _ : ℕ => ((0 : ℚ), (0 : ℚ))) n).1 < 1 ∧
        0 ≤ ((fun _ : ℕ => ((0 : ℚ), (0 : ℚ))) n).2 ∧
        ((fun _ : ℕ => ((0 : ℚ), (0 : ℚ))) n).2 < 1) ∧
      ((∀ d, d ∈ loadDishes [RawDishEntry.invalid,
          RawDishEntry.valid ⟨9, " ", none, none, none, none, none⟩,
          RawDishEntry.valid demoPilaf] ↔
        RawDishEntry.valid d ∈ [RawDishEntry.invalid,
          RawDishEntry.valid ⟨9, " ", none, none, none, none, none⟩,
          RawDishEntry.valid demoPilaf] ∧ d.name ≠ "" ∧ jsTrim d.name ≠ "") ∧
        List.Forall₂ (fun r r' =>
          numTruthy r'.latitude = true ∧ numTruthy r'.longitude = true ∧
            (¬(numTruthy r.latitude = true ∧ numTruthy r.longitude = true) →
              ∃ lat lng, r'.latitude = some lat ∧ r'.longitude = some lng ∧
                43.2 ≤ lat ∧ lat ≤ 43.3 ∧ 76.8 ≤ lng ∧ lng ≤ 77.0))
          [rLow, ⟨3, "NoCoords", none, none, 2, none, none⟩]
          (loadRestaurants (fun _ : ℕ => ((0 : ℚ), (0 : ℚ))) 0
            [rLow, ⟨3, "NoCoords", none, none, 2, none, none⟩])) :=
  ⟨fun _ => by norm_num,
    C8_load_invariants
      [RawDishEntry.invalid,
        RawDishEntry.valid ⟨9, " ", none, none, none, none, none⟩,
        RawDishEntry.valid demoPilaf]
      [rLow, ⟨3, "NoCoords", none, none, 2, none, none⟩]
      (fun _ => ((0 : ℚ), (0 : ℚ))) (fun _ => by norm_num)⟩

/-! ### C9 -/

/-- C9 counterexample: `min_price="0"` is a truthy string, so the handler
does apply the bound `price >= 0` and drops a dish priced below zero,
instead of returning the full collection. -/
theorem C9_zero_bound_counterexample :
    filterDishes lcAscii [dNeg] ⟨none, none, some "0", none⟩ = [] ∧
      [dNeg] ≠ ([] : List Dish) := by
  constructor
  · rfl
  · decide

/-- C9 (amended): an empty-string price parameter is falsy and imposes no
constraint, but the string "0" is truthy, parses to 0, and imposes the
corresponding numeric bound. -/
theorem C9_price_truthiness_amended (lc : String → String → Ordering)
    (dishes : List Dish) (s c : Option String) :
    filterDishes lc dishes ⟨s, c, some "", some ""⟩ =
        filterDishes lc dishes ⟨s, c, none, none⟩ ∧
      filterDishes lc dishes ⟨none, none, some "0", none⟩ =
        sortByName lc (dishes.filter fun d => priceGe d.price (some 0)) ∧
      filterDishes lc dishes ⟨none, none, none, some "0"⟩ =
        sortByName lc (dishes.filter fun d => priceLe d.price (some 0)) :=
  ⟨rfl, rfl, rfl⟩

/-! ### C10 -/

/-- C10: a nonempty query with a scope outside all/restaurants/dishes
succeeds with an object containing neither a restaurants nor a dishes list,
with no error and no fallback to the default scope. -/
theorem C10_unknown_scope_empty_object
    (restaurantsData : List Restaurant) (dishesData : List Dish)
    (s t : String) (hs : s ≠ "") (h1 : t ≠ "all") (h2 : t ≠ "restaurants")
    (h3 : t ≠ "dishes") :
    unifiedSearch restaurantsData dishesData (some s) (some t) =
      .ok ⟨none, none⟩ := by
  unfold unifiedSearch
  simp [strTruthy, hs, h1, h2, h3]

/-- Witness for C10 at the scope "menu". -/
theorem C10_unknown_scope_witness :
    ("pizza" : String) ≠ "" ∧ ("menu" : String) ≠ "all" ∧
      ("menu" : String) ≠ "restaurants" ∧ ("menu" : String) ≠ "dishes" ∧
      unifiedSearch [rLow, rHigh] [demoPilaf, demoBorscht] (some "pizza")
        (some "menu") = .ok ⟨none, none⟩ :=
  ⟨by decide, by decide, by decide, by decide,
    C10_unknown_scope_empty_object [rLow, rHigh] [demoPilaf, demoBorscht]
      "pizza" "menu" (by decide) (by decide) (by decide) (by decide)⟩
